import Mathlib

/-!
Verification of the VHD (dynamic Virtual Hard Disk) GRUB module,
`grub-core/disk/vhd.c`, against its natural-language specification.

The embedding models:
* the backing file as a size plus a byte function, with a seek/read state
  (`FileSt`) threading the file cursor and the sticky `grub_errno` value,
  following the file-access collaborator interface of the spec (seek fails
  when the target is past the end of file and leaves the cursor unchanged;
  read fails when it cannot supply the requested bytes; a failure sets the
  error value and success never clears it);
* `grub_vhd_read` as the exact sequence of seeks, reads and modular
  arithmetic performed by the C function, including the 32-bit wrap of
  `blocpos + 1` and the 64-bit wrap of file offsets;
* the device registry (`vhd_list`, `last_id`) as a list of records plus a
  counter, with `grub_cmd_vhd`'s add path, `delete_vhd` and
  `grub_vhd_iterate` translated structurally (first-match scans, in-place
  replacement, prepend on fresh add).
-/

/-! ## GRUB error codes (from grub/err.h; only distinctness matters) -/

def GRUB_ERR_NONE : Nat := 0
def GRUB_ERR_OUT_OF_MEMORY : Nat := 3
def GRUB_ERR_BAD_DEVICE : Nat := 9
def GRUB_ERR_OUT_OF_RANGE : Nat := 11
def GRUB_ERR_UNKNOWN_DEVICE : Nat := 12
def GRUB_ERR_NOT_IMPLEMENTED_YET : Nat := 26

/-- 2^32, the modulus of `grub_uint32_t` arithmetic. -/
def U32 : Nat := 4294967296

/-- 2^64, the modulus of `grub_uint64_t` / file-offset arithmetic. -/
def U64 : Nat := 18446744073709551616

/-! ## Backing-file model -/

/-- A backing file: a size in bytes and the byte stored at each offset
(reduced mod 256 on access, so any function is a valid content map). -/
structure GrubFile where
  size : Nat
  byte : Nat → Nat

/-- File-cursor state threaded through `grub_vhd_read`: the current read
position and the sticky `grub_errno` value (0 = no error). -/
structure FileSt where
  pos : Nat
  errno : Nat
deriving DecidableEq

/-- Byte at offset `i`, reduced into 0..255. -/
def readByte (f : GrubFile) (i : Nat) : Nat := f.byte i % 256

/-- `grub_file_seek`: on success moves the cursor; if the target is past
the end of the file it records `GRUB_ERR_OUT_OF_RANGE` and leaves the
cursor unchanged (the C code ignores the returned -1 and continues). -/
def fseek (f : GrubFile) (st : FileSt) (off : Nat) : FileSt :=
  if off ≤ f.size then { pos := off, errno := st.errno }
  else { pos := st.pos, errno := GRUB_ERR_OUT_OF_RANGE }

/-- Cursor/errno effect of `grub_file_read` of `n` bytes: modelled from the
spec's file-access interface, the read fails (recording an error, leaving
the cursor) when the file cannot supply all `n` bytes from the cursor. -/
def freadSt (f : GrubFile) (st : FileSt) (n : Nat) : FileSt :=
  if st.pos + n ≤ f.size then { pos := st.pos + n, errno := st.errno }
  else { pos := st.pos, errno := GRUB_ERR_OUT_OF_RANGE }

/-- Big-endian 32-bit value of the four bytes at offset `off`
(what `grub_swap_bytes32` yields after reading them on a LE host). -/
def be32At (f : GrubFile) (off : Nat) : Nat :=
  readByte f off * 16777216 + readByte f (off + 1) * 65536 +
    readByte f (off + 2) * 256 + readByte f (off + 3)

/-- Big-endian 64-bit value of the eight bytes at offset `off`. -/
def be64At (f : GrubFile) (off : Nat) : Nat :=
  be32At f off * 4294967296 + be32At f (off + 4)

/-- The values the C code would find in the uninitialized stack variables
(`dynheader`, `blocpos`) when a read fails and leaves them unfilled. -/
structure JunkHdr where
  bat : Nat
  blocsize : Nat
  bp : Nat
deriving DecidableEq

/-- Observable outcome of one `grub_vhd_read` call: the returned error,
the divisor handed to `grub_divmod64`, the computed final byte offset
(`finalpos`), the position the bulk data read actually starts at, and the
requested transfer length in bytes. -/
structure ReadOutcome where
  err : Nat
  divisor : Nat
  targetOff : Nat
  transferOff : Nat
  transferLen : Nat
deriving DecidableEq

/-- `density = grub_swap_bytes32(dynheader.blocsize) >> 9`. -/
def vhdDensity (bs : Nat) : Nat := bs >>> 9

/-- Shallow embedding of `grub_vhd_read` (vhd.c:207-236).  The C function:
seeks to 512, reads the 1024-byte dynamic header, computes
`density = blocsize >> 9`, `divmod64(sector, density)`, seeks to
`BAT + (nb_bloc << 2)` (64-bit arithmetic), reads the 4-byte big-endian
BAT entry, computes `finalpos = (blocpos + 1 + offsetbloc) << 9` where
`blocpos + 1` is 32-bit arithmetic, seeks there and reads
`size << 9` bytes; it returns `grub_errno` if any step recorded an error. -/
def grub_vhd_read (f : GrubFile) (junk : JunkHdr) (sector count : Nat) : ReadOutcome :=
  let st1 := fseek f { pos := 0, errno := GRUB_ERR_NONE } 512
  let hdrOk := st1.pos + 1024 ≤ f.size
  let st2 := freadSt f st1 1024
  let bat := if hdrOk then be64At f (st1.pos + 16) else junk.bat % U64
  let bs := if hdrOk then be32At f (st1.pos + 32) else junk.blocsize % U32
  let density := vhdDensity bs
  let nb_bloc := sector / density
  let offsetbloc := sector % density
  let batPos := (bat + nb_bloc * 4 % U64) % U64
  let st3 := fseek f st2 batPos
  let bpOk := st3.pos + 4 ≤ f.size
  let st4 := freadSt f st3 4
  let bp := if bpOk then be32At f st3.pos else junk.bp % U32
  let finalpos := (((bp + 1) % U32 + offsetbloc) * 512) % U64
  let st5 := fseek f st4 finalpos
  let len := count * 512 % U64
  let st6 := freadSt f st5 len
  { err := st6.errno, divisor := density, targetOff := finalpos,
    transferOff := st5.pos, transferLen := len }

/-! ## Spec-level names for the header fields and the translation formula,
as decoded from file offsets 512+16 (BAT) and 512+32 (blocsize). -/

/-- The BAT file offset: big-endian 64-bit field at byte 528 of the file. -/
def batOffsetOf (f : GrubFile) : Nat := be64At f 528

/-- The block-size field: big-endian 32-bit field at byte 544 of the file. -/
def blocsizeOf (f : GrubFile) : Nat := be32At f 544

/-- Sectors per block, `blocsize >> 9`. -/
def densityOf (f : GrubFile) : Nat := vhdDensity (blocsizeOf f)

/-- File offset of the BAT entry selected for logical sector `s`
(64-bit offset arithmetic, as the C code computes it). -/
def batEntryPos (f : GrubFile) (s : Nat) : Nat :=
  (batOffsetOf f + s / densityOf f * 4 % U64) % U64

/-- The 32-bit big-endian BAT entry fetched for logical sector `s`. -/
def blockPointerOf (f : GrubFile) (s : Nat) : Nat := be32At f (batEntryPos f s)

/-- The final byte offset the read path computes for logical sector `s`:
`((blockPointer + 1) mod 2^32 + s mod density) * 512`, reduced mod 2^64. -/
def specFinalPos (f : GrubFile) (s : Nat) : Nat :=
  (((blockPointerOf f s + 1) % U32 + s % densityOf f) * 512) % U64

/-! ## Basic bounds -/

theorem readByte_lt (f : GrubFile) (i : Nat) : readByte f i < 256 :=
  Nat.mod_lt _ (by norm_num)

theorem be32At_lt (f : GrubFile) (off : Nat) : be32At f off < U32 := by
  have h0 := readByte_lt f off
  have h1 := readByte_lt f (off + 1)
  have h2 := readByte_lt f (off + 2)
  have h3 := readByte_lt f (off + 3)
  unfold be32At U32
  omega

theorem be64At_lt (f : GrubFile) (off : Nat) : be64At f off < U64 := by
  have h0 := be32At_lt f off
  have h1 := be32At_lt f (off + 4)
  unfold be64At U32 U64 at *
  omega

/-- Success-path characterization of `grub_vhd_read`: when the header, the
selected BAT entry and the final transfer all lie inside the file, the call
succeeds and the observables are the spec-level translation values. -/
theorem grub_vhd_read_success (f : GrubFile) (junk : JunkHdr) (s count : Nat)
    (h1 : 1536 ≤ f.size)
    (h2 : batEntryPos f s + 4 ≤ f.size)
    (h3 : specFinalPos f s + count * 512 % U64 ≤ f.size) :
    grub_vhd_read f junk s count =
      { err := GRUB_ERR_NONE, divisor := densityOf f, targetOff := specFinalPos f s,
        transferOff := specFinalPos f s, transferLen := count * 512 % U64 } := by
  unfold batEntryPos batOffsetOf densityOf blocsizeOf at h2
  unfold specFinalPos blockPointerOf batEntryPos batOffsetOf densityOf blocsizeOf at h3
  have hA : (512:Nat) ≤ f.size := le_trans (by norm_num) h1
  have hC : (be64At f 528 + s / vhdDensity (be32At f 544) * 4 % U64) % U64 ≤ f.size :=
    le_trans (Nat.le_add_right _ 4) h2
  have hE : (((be32At f ((be64At f 528 + s / vhdDensity (be32At f 544) * 4 % U64) % U64) + 1) % U32
      + s % vhdDensity (be32At f 544)) * 512) % U64 ≤ f.size :=
    le_trans (Nat.le_add_right _ _) h3
  simp only [Nat.add_mod_mod] at hC h2 hE h3
  simp [grub_vhd_read, fseek, freadSt, specFinalPos, blockPointerOf, batEntryPos,
    batOffsetOf, densityOf, blocsizeOf, hA, h1, hC, h2, hE, h3]

/-! ## Error stickiness: once `grub_errno` is set, no later seek or read
in the call clears it, so the final `if (grub_errno)` check returns it. -/

theorem fseek_errno_sticky (f : GrubFile) (st : FileSt) (off : Nat)
    (h : st.errno = GRUB_ERR_OUT_OF_RANGE) :
    (fseek f st off).errno = GRUB_ERR_OUT_OF_RANGE := by
  unfold fseek
  split <;> simp [h]

theorem freadSt_errno_sticky (f : GrubFile) (st : FileSt) (n : Nat)
    (h : st.errno = GRUB_ERR_OUT_OF_RANGE) :
    (freadSt f st n).errno = GRUB_ERR_OUT_OF_RANGE := by
  unfold freadSt
  split <;> simp [h]

/-- If the file cannot supply the 1024 header bytes from offset 512, the
header read records `GRUB_ERR_OUT_OF_RANGE` (either the seek to 512 or the
read itself fails, and the initial cursor is 0). -/
theorem hdr_read_fails (f : GrubFile) (h : f.size < 1536) :
    (freadSt f (fseek f { pos := 0, errno := GRUB_ERR_NONE } 512) 1024).errno
      = GRUB_ERR_OUT_OF_RANGE := by
  unfold fseek freadSt
  rcases le_or_lt 512 f.size with h5 | h5
  · rw [if_pos h5]
    dsimp only
    rw [if_neg (by omega)]
  · rw [if_neg (by omega)]

/-- C4: a backing file that cannot supply 1024 bytes starting at byte 512
makes `grub_vhd_read` return an error (the out-of-range read error),
whatever garbage ends up in the undecoded header. -/
theorem grub_vhd_read_truncated_header (f : GrubFile) (junk : JunkHdr) (s count : Nat)
    (h : f.size < 1536) :
    (grub_vhd_read f junk s count).err = GRUB_ERR_OUT_OF_RANGE ∧
    (grub_vhd_read f junk s count).err ≠ GRUB_ERR_NONE := by
  have hmain : (grub_vhd_read f junk s count).err = GRUB_ERR_OUT_OF_RANGE := by
    show (freadSt f _ _).errno = GRUB_ERR_OUT_OF_RANGE
    apply freadSt_errno_sticky
    apply fseek_errno_sticky
    apply freadSt_errno_sticky
    apply fseek_errno_sticky
    exact hdr_read_fails f h
  exact ⟨hmain, by rw [hmain]; decide⟩

/-- C4 witness input: a 1000-byte file cannot supply the header bytes. -/
theorem grub_vhd_read_truncated_header_witness :
    (grub_vhd_read ⟨1000, fun _ => 0⟩ ⟨0, 0, 0⟩ 3 2).err = GRUB_ERR_OUT_OF_RANGE ∧
    (grub_vhd_read ⟨1000, fun _ => 0⟩ ⟨0, 0, 0⟩ 3 2).err ≠ GRUB_ERR_NONE :=
  grub_vhd_read_truncated_header ⟨1000, fun _ => 0⟩ ⟨0, 0, 0⟩ 3 2 (by norm_num)

/-! ## Concrete backing files for counterexamples and witnesses -/

/-- A 2048-byte VHD image: BAT offset 1536 (bytes 528..535), blocsize 512
(bytes 544..547, so density 1), and BAT entry 0 (bytes 1536..1539) holding
the all-ones unallocated sentinel 0xFFFFFFFF. -/
def cfile : GrubFile where
  size := 2048
  byte := fun i =>
    if i = 534 then 6
    else if i = 546 then 2
    else if 1536 ≤ i ∧ i ≤ 1539 then 255
    else 0

/-- An 8192-byte VHD image: BAT offset 1536, blocsize 512 (density 1),
and BAT entry 0 holding the ordinary block pointer 10. -/
def dfile : GrubFile where
  size := 8192
  byte := fun i =>
    if i = 534 then 6
    else if i = 546 then 2
    else if i = 1539 then 10
    else 0

/-- A 4096-byte all-zero file: its blocsize field decodes to 0. -/
def zeroFile : GrubFile where
  size := 4096
  byte := fun _ => 0

/-- C1 counterexample: on `cfile` the selected BAT entry is 0xFFFFFFFF and
the claimed exact-offset formula `(blockPointer + 1 + sectorInBlock) * 512`
gives 2^32 * 512, while the code's 32-bit increment wraps and the transfer
is performed from byte offset 0. -/
theorem grub_vhd_read_exact_offset_counterexample :
    blocsizeOf cfile = 512 ∧
    batOffsetOf cfile = 1536 ∧
    blockPointerOf cfile 0 = 4294967295 ∧
    (grub_vhd_read cfile ⟨0, 0, 0⟩ 0 1).err = GRUB_ERR_NONE ∧
    (grub_vhd_read cfile ⟨0, 0, 0⟩ 0 1).transferOff = 0 ∧
    (blockPointerOf cfile 0 + 1 + 0 % densityOf cfile) * 512 = 2199023255552 ∧
    (grub_vhd_read cfile ⟨0, 0, 0⟩ 0 1).transferOff
      ≠ (blockPointerOf cfile 0 + 1 + 0 % densityOf cfile) * 512 := by
  decide

/-- C1 (amended): for a readable header with blockSize a multiple of 512
and a readable BAT entry, the read path computes density = blockSize >> 9
(= blockSize / 512), blockIndex = s / density and sectorInBlock =
s % density with exact integer semantics, fetches the 4-byte big-endian
BAT entry at (batOffset + blockIndex * 4) mod 2^64, and performs one
single contiguous transfer of (sectorCount * 512) mod 2^64 bytes from byte
offset ((blockPointer + 1) mod 2^32 + sectorInBlock) * 512 mod 2^64 of the
backing file (the +1 is 32-bit arithmetic), with no per-block splitting. -/
theorem grub_vhd_read_translation (f : GrubFile) (junk : JunkHdr) (s count : Nat)
    (_hmul : 512 ∣ blocsizeOf f)
    (h1 : 1536 ≤ f.size)
    (h2 : batEntryPos f s + 4 ≤ f.size)
    (h3 : specFinalPos f s + count * 512 % U64 ≤ f.size) :
    (grub_vhd_read f junk s count).divisor = densityOf f ∧
    densityOf f = blocsizeOf f / 512 ∧
    s / densityOf f * densityOf f + s % densityOf f = s ∧
    batEntryPos f s = (batOffsetOf f + s / densityOf f * 4 % U64) % U64 ∧
    blockPointerOf f s = be32At f (batEntryPos f s) ∧
    (grub_vhd_read f junk s count).err = GRUB_ERR_NONE ∧
    (grub_vhd_read f junk s count).transferOff
      = (((blockPointerOf f s + 1) % U32 + s % densityOf f) * 512) % U64 ∧
    (grub_vhd_read f junk s count).transferLen = count * 512 % U64 := by
  have hs := grub_vhd_read_success f junk s count h1 h2 h3
  rw [hs]
  refine ⟨rfl, ?_, Nat.div_add_mod' s (densityOf f), rfl, rfl, rfl, rfl, rfl⟩
  unfold densityOf vhdDensity
  rw [Nat.shiftRight_eq_div_pow]

/-- C1 (amended) witness: the translation theorem applied to `dfile` with
sector 0 and count 1, where the BAT entry is the ordinary pointer 10. -/
theorem grub_vhd_read_translation_witness :
    (grub_vhd_read dfile ⟨0, 0, 0⟩ 0 1).err = GRUB_ERR_NONE ∧
    (grub_vhd_read dfile ⟨0, 0, 0⟩ 0 1).transferOff
      = (((blockPointerOf dfile 0 + 1) % U32 + 0 % densityOf dfile) * 512) % U64 ∧
    (grub_vhd_read dfile ⟨0, 0, 0⟩ 0 1).transferOff = 5632 := by
  have h := grub_vhd_read_translation dfile ⟨0, 0, 0⟩ 0 1
    (by decide) (by decide) (by decide) (by decide)
  exact ⟨h.2.2.2.2.2.1, h.2.2.2.2.2.2.1, by rw [h.2.2.2.2.2.2.1]; decide⟩

/-- The density decoded from a readable header is below 2^23, since the
32-bit blocsize field is below 2^32. -/
theorem densityOf_lt (f : GrubFile) : densityOf f < 8388608 := by
  have h := be32At_lt f 544
  unfold densityOf vhdDensity blocsizeOf at *
  rw [Nat.shiftRight_eq_div_pow]
  unfold U32 at h
  omega

/-- C9: when the fetched BAT entry is the all-ones sentinel 0xFFFFFFFF, the
32-bit increment `blocpos + 1` wraps to 0 before the widening to 64 bits,
so the computed physical byte offset is exactly `(s mod density) * 512`,
and when that range lies inside the backing file the read proceeds there
successfully instead of failing or special-casing the block. -/
theorem grub_vhd_read_unallocated_sentinel (f : GrubFile) (junk : JunkHdr) (s count : Nat)
    (h1 : 1536 ≤ f.size)
    (hd : densityOf f ≠ 0)
    (h2 : batEntryPos f s + 4 ≤ f.size)
    (hFF : blockPointerOf f s = 4294967295)
    (h3 : s % densityOf f * 512 + count * 512 % U64 ≤ f.size) :
    (grub_vhd_read f junk s count).targetOff = s % densityOf f * 512 ∧
    (grub_vhd_read f junk s count).transferOff = s % densityOf f * 512 ∧
    (grub_vhd_read f junk s count).err = GRUB_ERR_NONE := by
  have hdlt : s % densityOf f < 8388608 :=
    lt_of_lt_of_le (Nat.mod_lt s (Nat.pos_of_ne_zero hd)) (le_of_lt (densityOf_lt f))
  have hspec : specFinalPos f s = s % densityOf f * 512 := by
    unfold specFinalPos
    rw [hFF]
    have hwrap : (4294967295 + 1) % U32 = 0 := by decide
    rw [hwrap, Nat.zero_add]
    apply Nat.mod_eq_of_lt
    unfold U64
    omega
  have hs := grub_vhd_read_success f junk s count h1 h2 (by rw [hspec]; exact h3)
  rw [hs, hspec]
  exact ⟨rfl, rfl, rfl⟩

/-- C9 witness: on `cfile` (sentinel BAT entry, density 1) reading sector
0 with count 1 targets byte offset 0 and succeeds. -/
theorem grub_vhd_read_unallocated_sentinel_witness :
    (grub_vhd_read cfile ⟨0, 0, 0⟩ 0 1).targetOff = 0 % densityOf cfile * 512 ∧
    (grub_vhd_read cfile ⟨0, 0, 0⟩ 0 1).transferOff = 0 % densityOf cfile * 512 ∧
    (grub_vhd_read cfile ⟨0, 0, 0⟩ 0 1).err = GRUB_ERR_NONE :=
  grub_vhd_read_unallocated_sentinel cfile ⟨0, 0, 0⟩ 0 1
    (by decide) (by decide) (by decide) (by decide) (by decide)

/-- C10: the read path hands `grub_divmod64` the divisor
`density = blocsize >> 9` with no zero guard; any blocsize of at least 512
(in particular any multiple of 512) gives a nonzero divisor, any blocsize
below 512 gives divisor 0, and the zero divisor is reached on a concrete
all-zero header. -/
theorem grub_vhd_read_density_guard :
    (∀ (f : GrubFile) (junk : JunkHdr) (s count : Nat), 1536 ≤ f.size →
      (grub_vhd_read f junk s count).divisor = densityOf f) ∧
    (∀ bs : Nat, 512 ≤ bs → vhdDensity bs ≠ 0) ∧
    (∀ bs : Nat, bs < 512 → vhdDensity bs = 0) ∧
    blocsizeOf zeroFile = 0 ∧
    (grub_vhd_read zeroFile ⟨0, 0, 0⟩ 0 1).divisor = 0 := by
  refine ⟨?_, ?_, ?_, by decide, by decide⟩
  · intro f junk s count h1
    have hA : (512:Nat) ≤ f.size := le_trans (by norm_num) h1
    simp [grub_vhd_read, fseek, freadSt, densityOf, blocsizeOf, hA, h1]
  · intro bs hbs
    unfold vhdDensity
    rw [Nat.shiftRight_eq_div_pow]
    have : 0 < bs / 2 ^ 9 := Nat.div_pos (by omega) (by norm_num)
    omega
  · intro bs hbs
    unfold vhdDensity
    rw [Nat.shiftRight_eq_div_pow]
    exact Nat.div_eq_of_lt (by omega)

/-- C10 witness: divisor observables at concrete inputs. -/
theorem grub_vhd_read_density_guard_witness :
    (grub_vhd_read zeroFile ⟨0, 0, 0⟩ 0 1).divisor = densityOf zeroFile ∧
    vhdDensity 1024 ≠ 0 ∧
    vhdDensity 100 = 0 := by
  have h := grub_vhd_read_density_guard
  exact ⟨h.1 zeroFile ⟨0, 0, 0⟩ 0 1 (by decide), h.2.1 1024 (by norm_num),
    h.2.2.1 100 (by norm_num)⟩

/-! ## Device registry model (vhd.c:30-36, 63-64, 77-180)

A registered device pairs a name with a backing-file handle (modelled as an
opaque `Nat`) and the identity assigned at creation.  The registry state is
the `vhd_list` collection plus the process-wide `last_id` counter.  Closing
a file handle is recorded in the `closed` list of an operation's result. -/

structure VhdDev where
  devname : String
  file : Nat
  id : Nat
deriving DecidableEq

structure VhdState where
  vhd_list : List VhdDev
  last_id : Nat
deriving DecidableEq

/-- Result of a registry operation: the new state, the returned error code
and the file handles closed during the operation. -/
structure OpResult where
  state : VhdState
  err : Nat
  closed : List Nat
deriving DecidableEq

/-- The first-match removal performed by `delete_vhd`'s scan-and-unlink
pointer surgery: the removed device and the remaining list, if any
device carries the name. -/
def removeFirst (name : String) : List VhdDev → Option (VhdDev × List VhdDev)
  | [] => none
  | d :: rest =>
    if d.devname = name then some (d, rest)
    else
      match removeFirst name rest with
      | some (x, l) => some (x, d :: l)
      | none => none

/-- `delete_vhd` (vhd.c:77-101): unlink the first device with the given
name, close its backing file and free it; `GRUB_ERR_BAD_DEVICE` if no
device matches, leaving the registry untouched. -/
def delete_vhd (name : String) (s : VhdState) : OpResult :=
  match removeFirst name s.vhd_list with
  | none => { state := s, err := GRUB_ERR_BAD_DEVICE, closed := [] }
  | some (d, l) =>
      { state := { vhd_list := l, last_id := s.last_id },
        err := GRUB_ERR_NONE, closed := [d.file] }

/-- The in-place replacement performed by `grub_cmd_vhd`'s first scan: the
old backing file of the first device with the given name, and the list
with that device's file field overwritten (name and id untouched). -/
def replaceFirst (name : String) (file : Nat) : List VhdDev → Option (Nat × List VhdDev)
  | [] => none
  | d :: rest =>
    if d.devname = name then
      some (d.file, { devname := d.devname, file := file, id := d.id } :: rest)
    else
      match replaceFirst name file rest with
      | some (old, l) => some (old, d :: l)
      | none => none

/-- The add path of `grub_cmd_vhd` (vhd.c:122-164), after the backing file
was successfully opened.  `allocOk` and `strdupOk` are the outcomes of
`grub_malloc` and `grub_strdup` (both set `grub_errno` to
`GRUB_ERR_OUT_OF_MEMORY` on failure).  An existing same-named device has
its file swapped in place (old file closed, id kept); otherwise a fresh
record gets `id = last_id++` and is prepended; on allocation failure the
opened file is closed and the error returned with the registry untouched. -/
def grub_cmd_vhd_add (name : String) (file : Nat) (allocOk strdupOk : Bool)
    (s : VhdState) : OpResult :=
  match replaceFirst name file s.vhd_list with
  | some (old, l) =>
      { state := { vhd_list := l, last_id := s.last_id },
        err := GRUB_ERR_NONE, closed := [old] }
  | none =>
      if allocOk = false then
        { state := s, err := GRUB_ERR_OUT_OF_MEMORY, closed := [file] }
      else if strdupOk = false then
        { state := s, err := GRUB_ERR_OUT_OF_MEMORY, closed := [file] }
      else
        { state := { vhd_list := { devname := name, file := file, id := s.last_id } :: s.vhd_list,
                     last_id := s.last_id + 1 },
          err := GRUB_ERR_NONE, closed := [] }

/-- `GRUB_DISK_PULL_NONE`, the only pull mode the backend iterates for. -/
def GRUB_DISK_PULL_NONE : Nat := 0

/-- The visitor loop of `grub_vhd_iterate`: walks the list in order,
stopping with result 1 as soon as the hook returns nonzero; also records
the names passed to the hook. -/
def iterList (hook : String → Bool) : List VhdDev → Bool × List String
  | [] => (false, [])
  | d :: rest =>
    if hook d.devname then (true, [d.devname])
    else
      let r := iterList hook rest
      (r.1, d.devname :: r.2)

/-- `grub_vhd_iterate` (vhd.c:167-180): a no-op returning 0 for any pull
mode other than `GRUB_DISK_PULL_NONE`, otherwise the visitor loop. -/
def grub_vhd_iterate (hook : String → Bool) (pull : Nat) (s : VhdState) : Bool × List String :=
  if pull ≠ GRUB_DISK_PULL_NONE then (false, []) else iterList hook s.vhd_list

/-- `grub_vhd_write` (vhd.c:238-246): returns
`GRUB_ERR_NOT_IMPLEMENTED_YET` unconditionally and performs no operation
on the registry state or the backing file. -/
def grub_vhd_write (s : VhdState) (f : GrubFile) (_sector _count : Nat)
    (_buf : List Nat) : Nat × VhdState × GrubFile :=
  (GRUB_ERR_NOT_IMPLEMENTED_YET, s, f)

/-! ## Registry lemmas -/

theorem removeFirst_of_absent (name : String) :
    ∀ l : List VhdDev, (∀ d ∈ l, d.devname ≠ name) → removeFirst name l = none
  | [], _ => rfl
  | d :: rest, h => by
    unfold removeFirst
    rw [if_neg (h d (List.mem_cons_self d rest))]
    rw [removeFirst_of_absent name rest (fun x hx => h x (List.mem_cons_of_mem d hx))]

theorem replaceFirst_of_absent (name : String) (file : Nat) :
    ∀ l : List VhdDev, (∀ d ∈ l, d.devname ≠ name) → replaceFirst name file l = none
  | [], _ => rfl
  | d :: rest, h => by
    unfold replaceFirst
    rw [if_neg (h d (List.mem_cons_self d rest))]
    rw [replaceFirst_of_absent name file rest (fun x hx => h x (List.mem_cons_of_mem d hx))]

theorem replaceFirst_none_absent (name : String) (file : Nat) :
    ∀ l : List VhdDev, replaceFirst name file l = none → ∀ d ∈ l, d.devname ≠ name := by
  intro l
  induction l with
  | nil => intro _ d hd; exact absurd hd (List.not_mem_nil d)
  | cons d rest ih =>
    intro hnone x hx
    unfold replaceFirst at hnone
    by_cases hd : d.devname = name
    · rw [if_pos hd] at hnone
      exact absurd hnone (by simp)
    · rw [if_neg hd] at hnone
      rcases List.mem_cons.mp hx with h | h
      · rw [h]; exact hd
      · rcases hrec : replaceFirst name file rest with _ | pr
        · exact ih hrec x h
        · rw [hrec] at hnone
          exact absurd hnone (by simp)

/-- C6: deleting a name not present in the registry returns
`GRUB_ERR_BAD_DEVICE`, closes nothing and leaves the registry state
(size and contents) exactly unchanged. -/
theorem delete_vhd_not_found (name : String) (s : VhdState)
    (h : ∀ d ∈ s.vhd_list, d.devname ≠ name) :
    delete_vhd name s = { state := s, err := GRUB_ERR_BAD_DEVICE, closed := [] } := by
  unfold delete_vhd
  rw [removeFirst_of_absent name s.vhd_list h]

/-- A sample two-device registry used by witnesses. -/
def twoDevState : VhdState :=
  { vhd_list := [{ devname := "d", file := 7, id := 4 },
                 { devname := "e", file := 8, id := 5 }],
    last_id := 6 }

/-- C6 witness: deleting the absent name "x" from the two-device registry. -/
theorem delete_vhd_not_found_witness :
    delete_vhd "x" twoDevState
      = { state := twoDevState, err := GRUB_ERR_BAD_DEVICE, closed := [] } :=
  delete_vhd_not_found "x" twoDevState (by decide)

/-- C3: a failed add of a not-yet-registered name (record allocation or
name duplication fails) closes the just-opened backing file, returns the
out-of-memory error, and leaves the registry exactly as before. -/
theorem grub_cmd_vhd_add_alloc_failure (name : String) (file : Nat)
    (allocOk strdupOk : Bool) (s : VhdState)
    (habs : ∀ d ∈ s.vhd_list, d.devname ≠ name)
    (hfail : allocOk = false ∨ strdupOk = false) :
    grub_cmd_vhd_add name file allocOk strdupOk s
      = { state := s, err := GRUB_ERR_OUT_OF_MEMORY, closed := [file] } := by
  unfold grub_cmd_vhd_add
  rw [replaceFirst_of_absent name file s.vhd_list habs]
  rcases hfail with h | h
  · rw [if_pos h]
  · by_cases ha : allocOk = false
    · rw [if_pos ha]
    · rw [if_neg ha, if_pos h]

/-- C3 witness: a fresh-name add with a failing record allocation. -/
theorem grub_cmd_vhd_add_alloc_failure_witness :
    grub_cmd_vhd_add "z" 42 false true twoDevState
      = { state := twoDevState, err := GRUB_ERR_OUT_OF_MEMORY, closed := [42] } :=
  grub_cmd_vhd_add_alloc_failure "z" 42 false true twoDevState (by decide) (Or.inl rfl)

/-- C5: the write operation always returns `GRUB_ERR_NOT_IMPLEMENTED_YET`
and leaves the registry state and the backing file untouched. -/
theorem grub_vhd_write_not_implemented (s : VhdState) (f : GrubFile)
    (sector count : Nat) (buf : List Nat) :
    grub_vhd_write s f sector count buf = (GRUB_ERR_NOT_IMPLEMENTED_YET, s, f) ∧
    GRUB_ERR_NOT_IMPLEMENTED_YET ≠ GRUB_ERR_NONE :=
  ⟨rfl, by decide⟩

theorem map_self_of_fixed (g : VhdDev → VhdDev) :
    ∀ l : List VhdDev, (∀ x ∈ l, g x = x) → l.map g = l
  | [], _ => rfl
  | d :: rest, h => by
    simp only [List.map_cons]
    rw [h d (List.mem_cons_self d rest),
      map_self_of_fixed g rest (fun x hx => h x (List.mem_cons_of_mem d hx))]

/-- In a registry whose names are unique, the first-match replacement hits
exactly the device named `name`, and the result is the pointwise map that
overwrites that device's file field. -/
theorem replaceFirst_found (name : String) (file : Nat) :
    ∀ (l : List VhdDev) (d0 : VhdDev), d0 ∈ l → d0.devname = name →
      (l.map VhdDev.devname).Nodup →
      replaceFirst name file l
        = some (d0.file, l.map (fun d =>
            if d.devname = name then { devname := d.devname, file := file, id := d.id } else d)) := by
  intro l
  induction l with
  | nil => intro d0 h; exact absurd h (List.not_mem_nil d0)
  | cons d rest ih =>
    intro d0 hmem hname hnodup
    rw [List.map_cons, List.nodup_cons] at hnodup
    by_cases hd : d.devname = name
    · have hd0 : d0 = d := by
        rcases List.mem_cons.mp hmem with h | h
        · exact h
        · exact absurd (List.mem_map.mpr ⟨d0, h, by rw [hname, hd]⟩) hnodup.1
      subst hd0
      unfold replaceFirst
      rw [if_pos hd, List.map_cons, if_pos hd]
      have hfix : ∀ x ∈ rest,
          (if x.devname = name then ({ devname := x.devname, file := file, id := x.id } : VhdDev) else x) = x := by
        intro x hx
        rw [if_neg]
        intro hxn
        exact hnodup.1 (List.mem_map.mpr ⟨x, hx, by rw [hxn, hd]⟩)
      rw [map_self_of_fixed _ rest hfix]
    · have hd0r : d0 ∈ rest := by
        rcases List.mem_cons.mp hmem with h | h
        · exact absurd (by rw [← h]; exact hname) hd
        · exact h
      unfold replaceFirst
      rw [if_neg hd, ih d0 hd0r hname hnodup.2, List.map_cons, if_neg hd]

/-- In a registry whose names are unique, filtering the replaced list for
the target name yields exactly the one updated record. -/
theorem filter_after_replace (name : String) (file : Nat) :
    ∀ (l : List VhdDev) (d0 : VhdDev), d0 ∈ l → d0.devname = name →
      (l.map VhdDev.devname).Nodup →
      (l.map (fun d =>
          if d.devname = name then { devname := d.devname, file := file, id := d.id } else d)).filter
        (fun d => d.devname == name)
        = [{ devname := name, file := file, id := d0.id }] := by
  intro l
  induction l with
  | nil => intro d0 h; exact absurd h (List.not_mem_nil d0)
  | cons d rest ih =>
    intro d0 hmem hname hnodup
    rw [List.map_cons, List.nodup_cons] at hnodup
    by_cases hd : d.devname = name
    · have hd0 : d0 = d := by
        rcases List.mem_cons.mp hmem with h | h
        · exact h
        · exact absurd (List.mem_map.mpr ⟨d0, h, by rw [hname, hd]⟩) hnodup.1
      subst hd0
      rw [List.map_cons, if_pos hd]
      have hfix : ∀ x ∈ rest,
          (if x.devname = name then ({ devname := x.devname, file := file, id := x.id } : VhdDev) else x) = x := by
        intro x hx
        rw [if_neg]
        intro hxn
        exact hnodup.1 (List.mem_map.mpr ⟨x, hx, by rw [hxn, hd]⟩)
      rw [map_self_of_fixed _ rest hfix]
      rw [List.filter_cons_of_pos (by simp [hd])]
      rw [List.filter_eq_nil_iff.mpr ?tail]
      · rw [hd]
      case tail =>
        intro x hx
        simp only [beq_iff_eq, decide_eq_true_eq]
        intro hxn
        exact hnodup.1 (List.mem_map.mpr ⟨x, hx, by rw [hxn, hd]⟩)
    · have hd0r : d0 ∈ rest := by
        rcases List.mem_cons.mp hmem with h | h
        · exact absurd (by rw [← h]; exact hname) hd
        · exact h
      rw [List.map_cons, if_neg hd]
      rw [List.filter_cons_of_neg (by simp [hd])]
      exact ih d0 hd0r hname hnodup.2

/-- C2: an add request naming an already-registered device (unique names
being the registry invariant) succeeds, closes the old backing file,
leaves the identity counter alone, rewrites only that device's file field
(every other entry unchanged), and leaves exactly one entry of that name,
carrying the new file and the identity from the first add. -/
theorem grub_cmd_vhd_replace (s : VhdState) (name : String) (file : Nat)
    (o1 o2 : Bool) (d0 : VhdDev)
    (hmem : d0 ∈ s.vhd_list) (hname : d0.devname = name)
    (hnodup : (s.vhd_list.map VhdDev.devname).Nodup) :
    (grub_cmd_vhd_add name file o1 o2 s).err = GRUB_ERR_NONE ∧
    (grub_cmd_vhd_add name file o1 o2 s).closed = [d0.file] ∧
    (grub_cmd_vhd_add name file o1 o2 s).state.last_id = s.last_id ∧
    (grub_cmd_vhd_add name file o1 o2 s).state.vhd_list
      = s.vhd_list.map (fun d =>
          if d.devname = name then { devname := d.devname, file := file, id := d.id } else d) ∧
    (grub_cmd_vhd_add name file o1 o2 s).state.vhd_list.filter
        (fun d => d.devname == name)
      = [{ devname := name, file := file, id := d0.id }] := by
  unfold grub_cmd_vhd_add
  rw [replaceFirst_found name file s.vhd_list d0 hmem hname hnodup]
  exact ⟨rfl, rfl, rfl, rfl, filter_after_replace name file s.vhd_list d0 hmem hname hnodup⟩

/-- C2 witness: replacing device "d" of the two-device registry with
backing file 99 keeps id 4, closes old file 7 and touches nothing else. -/
theorem grub_cmd_vhd_replace_witness :
    (grub_cmd_vhd_add "d" 99 true true twoDevState).err = GRUB_ERR_NONE ∧
    (grub_cmd_vhd_add "d" 99 true true twoDevState).closed = [7] ∧
    (grub_cmd_vhd_add "d" 99 true true twoDevState).state.vhd_list
      = [{ devname := "d", file := 99, id := 4 }, { devname := "e", file := 8, id := 5 }] ∧
    (grub_cmd_vhd_add "d" 99 true true twoDevState).state.vhd_list.filter
        (fun d => d.devname == "d")
      = [{ devname := "d", file := 99, id := 4 }] := by
  have h := grub_cmd_vhd_replace twoDevState "d" 99 true true
    { devname := "d", file := 7, id := 4 } (by decide) rfl (by decide)
  refine ⟨h.1, h.2.1, ?_, h.2.2.2.2⟩
  rw [h.2.2.2.1]
  decide

/-! ## Iteration scenario: add "a", "b", "c", delete "b". -/

/-- The initial registry: empty list, identity counter 0. -/
def emptyVhdState : VhdState := { vhd_list := [], last_id := 0 }

/-- A fully successful add (file open, allocation and name duplication all
succeed), as performed by the `vhd NAME FILE` command. -/
def addOk (n : String) (f : Nat) (s : VhdState) : VhdState :=
  (grub_cmd_vhd_add n f true true s).state

/-- The registry after `vhd a fa; vhd b fb; vhd c fc; vhd -d b`. -/
def scenarioABC (fa fb fc : Nat) : VhdState :=
  (delete_vhd "b" (addOk "c" fc (addOk "b" fb (addOk "a" fa emptyVhdState)))).state

/-- C7: after adding "a", "b", "c" and deleting "b", iteration in pull
mode `GRUB_DISK_PULL_NONE` invokes the visitor once for "c" and once for
"a" and for no other name (in list order "c", "a"), stopping early with
result 1 as soon as the visitor returns nonzero; for any other pull mode
it visits nothing and returns 0. -/
theorem grub_vhd_iterate_scenario (fa fb fc : Nat) (hook : String → Bool) (pull : Nat) :
    (pull ≠ GRUB_DISK_PULL_NONE →
      grub_vhd_iterate hook pull (scenarioABC fa fb fc) = (false, [])) ∧
    grub_vhd_iterate hook GRUB_DISK_PULL_NONE (scenarioABC fa fb fc)
      = (hook "c" || hook "a", if hook "c" then ["c"] else ["c", "a"]) := by
  have hsc : scenarioABC fa fb fc
      = { vhd_list := [{ devname := "c", file := fc, id := 2 },
                       { devname := "a", file := fa, id := 0 }],
          last_id := 3 } := rfl
  constructor
  · intro hp
    unfold grub_vhd_iterate
    rw [if_pos hp]
  · rw [hsc]
    unfold grub_vhd_iterate
    rw [if_neg (by simp)]
    cases hc : hook "c" <;> cases ha : hook "a" <;> simp [iterList, hc, ha]

/-- C7 witness: a never-stopping visitor sees exactly "c" then "a" in the
normal pull mode, and nothing in pull mode 1. -/
theorem grub_vhd_iterate_scenario_witness :
    grub_vhd_iterate (fun _ => false) 1 (scenarioABC 11 22 33) = (false, []) ∧
    grub_vhd_iterate (fun _ => false) GRUB_DISK_PULL_NONE (scenarioABC 11 22 33)
      = (false, ["c", "a"]) := by
  have h := grub_vhd_iterate_scenario 11 22 33 (fun _ => false) 1
  refine ⟨h.1 (by decide), ?_⟩
  have h2 := h.2
  simpa using h2

/-! ## Operation traces and the identity counter -/

/-- A registry command: the add path of `grub_cmd_vhd` (with its two
allocation outcomes) or `delete_vhd`. -/
inductive VhdOp where
  | add (name : String) (file : Nat) (allocOk strdupOk : Bool)
  | del (name : String)
deriving DecidableEq

/-- State transition of one command. -/
def stepOp (s : VhdState) : VhdOp → VhdState
  | .add n f a b => (grub_cmd_vhd_add n f a b s).state
  | .del n => (delete_vhd n s).state

/-- Whether the command is a successful add of a not-yet-registered name,
i.e. creates a fresh device record. -/
def freshAdd (s : VhdState) : VhdOp → Bool
  | .add n _ a b => a && b && s.vhd_list.all (fun d => ! (d.devname == n))
  | .del _ => false

/-- The identities assigned to freshly created devices along a command
sequence, in execution order. -/
def runIds (s : VhdState) : List VhdOp → List Nat
  | [] => []
  | op :: ops =>
    if freshAdd s op then s.last_id :: runIds (stepOp s op) ops
    else runIds (stepOp s op) ops

theorem stepOp_fresh_last_id (s : VhdState) (op : VhdOp) (h : freshAdd s op = true) :
    (stepOp s op).last_id = s.last_id + 1 := by
  cases op with
  | del n => simp [freshAdd] at h
  | add n f a b =>
    simp only [freshAdd, Bool.and_eq_true, List.all_eq_true] at h
    obtain ⟨⟨ha, hb⟩, hall⟩ := h
    have habs : ∀ d ∈ s.vhd_list, d.devname ≠ n := by
      intro d hd
      simpa using hall d hd
    simp only [stepOp]
    unfold grub_cmd_vhd_add
    rw [replaceFirst_of_absent n f s.vhd_list habs]
    subst ha hb
    simp

theorem stepOp_notfresh_last_id (s : VhdState) (op : VhdOp) (h : freshAdd s op = false) :
    (stepOp s op).last_id = s.last_id := by
  cases op with
  | del n =>
    simp only [stepOp]
    unfold delete_vhd
    rcases hr : removeFirst n s.vhd_list with - | ⟨d, l⟩ <;> simp [hr]
  | add n f a b =>
    rcases hrep : replaceFirst n f s.vhd_list with - | ⟨old, l⟩
    · have habs := replaceFirst_none_absent n f s.vhd_list hrep
      have hall : s.vhd_list.all (fun d => ! (d.devname == n)) = true := by
        rw [List.all_eq_true]
        intro d hd
        simpa using habs d hd
      simp only [freshAdd, hall, Bool.and_true] at h
      simp only [stepOp]
      unfold grub_cmd_vhd_add
      rw [hrep]
      cases a <;> cases b <;> simp_all
    · simp only [stepOp]
      unfold grub_cmd_vhd_add
      rw [hrep]

theorem runIds_lb : ∀ (ops : List VhdOp) (s : VhdState), ∀ i ∈ runIds s ops, s.last_id ≤ i := by
  intro ops
  induction ops with
  | nil => intro s i hi; simp [runIds] at hi
  | cons op rest ih =>
    intro s i hi
    unfold runIds at hi
    by_cases hf : freshAdd s op = true
    · rw [if_pos hf] at hi
      rcases List.mem_cons.mp hi with h | h
      · rw [h]
      · have hle := ih (stepOp s op) i h
        rw [stepOp_fresh_last_id s op hf] at hle
        omega
    · rw [if_neg hf] at hi
      have hle := ih (stepOp s op) i hi
      rw [stepOp_notfresh_last_id s op (by simpa using hf)] at hle
      exact hle

theorem runIds_pairwise : ∀ (ops : List VhdOp) (s : VhdState),
    List.Pairwise (· < ·) (runIds s ops) := by
  intro ops
  induction ops with
  | nil => intro s; simp [runIds]
  | cons op rest ih =>
    intro s
    unfold runIds
    by_cases hf : freshAdd s op = true
    · rw [if_pos hf]
      refine List.pairwise_cons.mpr ⟨?_, ih (stepOp s op)⟩
      intro i hi
      have hlb := runIds_lb rest (stepOp s op) i hi
      rw [stepOp_fresh_last_id s op hf] at hlb
      omega
    · rw [if_neg hf]
      exact ih (stepOp s op)

/-- C8: a successful add of a not-yet-registered name creates a record
carrying the current counter value, prepends it to the collection and
increments the counter; and over every command sequence the assigned
identities are strictly increasing in creation order, hence never reused
even after deletions. -/
theorem vhd_identity_counter :
    (∀ (s : VhdState) (n : String) (f : Nat),
      (∀ d ∈ s.vhd_list, d.devname ≠ n) →
      (grub_cmd_vhd_add n f true true s).err = GRUB_ERR_NONE ∧
      (grub_cmd_vhd_add n f true true s).state.vhd_list
        = { devname := n, file := f, id := s.last_id } :: s.vhd_list ∧
      (grub_cmd_vhd_add n f true true s).state.last_id = s.last_id + 1) ∧
    (∀ (s : VhdState) (ops : List VhdOp), List.Pairwise (· < ·) (runIds s ops)) := by
  constructor
  · intro s n f habs
    unfold grub_cmd_vhd_add
    rw [replaceFirst_of_absent n f s.vhd_list habs]
    exact ⟨rfl, rfl, rfl⟩
  · intro s ops
    exact runIds_pairwise ops s

/-- C8 witness: the counter assigns 0, 1, 2 across adds of "a", "b", "c"
with "a" deleted in between, strictly increasing and never reused. -/
theorem vhd_identity_counter_witness :
    (grub_cmd_vhd_add "a" 7 true true emptyVhdState).state.vhd_list
      = [{ devname := "a", file := 7, id := 0 }] ∧
    (grub_cmd_vhd_add "a" 7 true true emptyVhdState).state.last_id = 1 ∧
    List.Pairwise (· < ·) (runIds emptyVhdState
      [VhdOp.add "a" 1 true true, VhdOp.add "b" 2 true true, VhdOp.del "a",
       VhdOp.add "c" 3 true true]) ∧
    runIds emptyVhdState
      [VhdOp.add "a" 1 true true, VhdOp.add "b" 2 true true, VhdOp.del "a",
       VhdOp.add "c" 3 true true] = [0, 1, 2] := by
  have h := vhd_identity_counter
  have h1 := h.1 emptyVhdState "a" 7 (by simp [emptyVhdState])
  exact ⟨h1.2.1, h1.2.2, h.2 emptyVhdState _, by decide⟩
